import Mathlib

/-!
Shallow embedding of the hybrid server-side smart-table feature component
(src/example.ts, class SmartTableHybridServerSideComponent).

Modelling conventions:
- JS objects become structures; a possibly-undefined JS value becomes an Option.
- A JS property read on undefined (a TypeError) is modelled by Except.error.
- String.prototype.localeCompare is modelled as code-point collation, the
  collation the comparison operators of JS use and the reference behaviour of
  localeCompare without locale data.
- The RxJS pipelines of observeShortPollingData and observeShortPollingLoading
  are modelled as a step machine over an explicit event alphabet: a debounced
  trigger clears the row set and starts a fetch with a fresh generation
  (switchMap unsubscribes the previous inner fetch, so only a completion whose
  generation equals the current one is forwarded), a fetch error with the
  current generation terminates the data subscription (no error handler is
  installed), a loading emission runs the reconciler of
  observeShortPollingLoading, and destroy models teardown (untilDestroyed plus
  the destroyCalled guard).
- debounceTime(100) is modelled as a pure function over timestamped event
  lists; the payload carried by an event models the ambient view state at the
  moment the event fired, which is the state a fetch issued after a quiescent
  window observes.
-/

inductive SortDir
  | asc
  | desc
deriving DecidableEq, Repr

/-- Row model: loading flag, identifier and hierarchy path, as produced by the
loadingRows generator and as read by the overridden column callbacks. -/
structure Row where
  loading : Bool
  id : String
  hierarchyStructure : List String
deriving DecidableEq, Repr

/-- RowNode model: node.data is undefined for nodes without backing data. -/
structure RowNode where
  data : Option Row
deriving DecidableEq, Repr

/-- Column state entry as returned by columnApi.getColumnState. -/
structure ColumnState where
  colId : String
  sort : Option SortDir
deriving DecidableEq, Repr

/-- Value-getter parameters: params.data and the colId of the column colDef. -/
structure VGParams where
  data : Option Row
  colId : Option String
deriving DecidableEq, Repr

/-- Embedding of the loadingRows field: Array.from(Array(25).keys(), i =>
({ loading: true, id: 'loading' + i, hierarchyStructure: ['loading' + i] })). -/
def loadingRows : List Row :=
  (List.range 25).map fun i =>
    { loading := true
      id := "loading" ++ toString i
      hierarchyStructure := ["loading" ++ toString i] }

/-- Embedding of the maxCharCode constant of getValueGetterFn. -/
def maxCharCode : Nat := 10000

/-- Sentinel String.fromCharCode(maxCharCode) returned for ascending columns. -/
def maxSentinel : String := String.mk [Char.ofNat maxCharCode]

/-- Sentinel String.fromCharCode(0) returned for non-ascending columns. -/
def minSentinel : String := String.mk [Char.ofNat 0]

/-- Lookup of correspondingColumnState followed by the test
correspondingColumnState?.sort === SmartTableSortingOrder.ASC. -/
def activeAsc (columnsState : List ColumnState) (colId : Option String) : Bool :=
  (columnsState.find? fun columnState => some columnState.colId == colId).elim
    false (fun columnState => columnState.sort == some SortDir.asc)

/-- Embedding of getValueGetterFn: for a loading row (params.data?.loading)
return the direction-dependent sentinel; otherwise call the real valueGetter
of the colDef and fall back (the ?? operator) to the same sentinel when it
yields no value. -/
def getValueGetterFn (valueGetter : VGParams → Option String)
    (columnsState : List ColumnState) (params : VGParams) : String :=
  let sentinel :=
    if activeAsc columnsState params.colId then maxSentinel else minSentinel
  if (params.data.elim false Row.loading) then sentinel
  else (valueGetter params).getD sentinel

/-- Lexicographic code-point order on character lists. -/
def charCodeLt : List Char → List Char → Bool
  | _, [] => false
  | [], _ :: _ => true
  | c :: cs, d :: ds =>
    if c.toNat < d.toNat then true
    else if d.toNat < c.toNat then false
    else charCodeLt cs ds

/-- Model of String.prototype.localeCompare under code-point collation. -/
def localeCompare (a b : String) : Int :=
  if charCodeLt a.data b.data then -1
  else if charCodeLt b.data a.data then 1 else 0

/-- Embedding of dummyComparator on rows whose node data is present. -/
def dummyComparator (a b : String) (rowA rowB : Row) (isInverted : Bool) :
    Option Int :=
  if rowA.loading || rowB.loading then
    some (if isInverted then localeCompare a b else localeCompare a b * (-1) + 0)
  else none

/-- Embedding of dummyComparator at the RowNode level: rowA.data.loading and
rowB.data.loading are read without optional chaining, so a node without data
raises a TypeError; rowB.data is only read when rowA is not loading (the ||
operator short-circuits). -/
def dummyComparatorNode (a b : String) (rowA rowB : RowNode)
    (isInverted : Bool) : Except String (Option Int) :=
  match rowA.data with
  | none => Except.error "TypeError"
  | some da =>
    if da.loading then
      Except.ok (some (if isInverted then localeCompare a b
        else localeCompare a b * (-1) + 0))
    else
      match rowB.data with
      | none => Except.error "TypeError"
      | some db =>
        if db.loading then
          Except.ok (some (if isInverted then localeCompare a b
            else localeCompare a b * (-1) + 0))
        else Except.ok none

/-- Embedding of the isRowFilterSkipped predicate of getFeatureSetup:
(node) => !window[key]?.includes(node.data.id) && node.data.loading.
The registry argument models the window entry. When the registry is absent the
optional call short-circuits without evaluating node.data.id, the negation
yields true and node.data.loading is read; when the registry is present,
node.data.id is read first. Either way node.data is dereferenced without a
guard, so a node without data raises a TypeError. -/
def isRowFilterSkipped (registry : Option (List String)) (node : RowNode) :
    Except String Bool :=
  match registry with
  | none =>
    match node.data with
    | none => Except.error "TypeError"
    | some d => Except.ok d.loading
  | some ids =>
    match node.data with
    | none => Except.error "TypeError"
    | some d => Except.ok (!(ids.contains d.id) && d.loading)

/-- Embedding of the client-side sort the grid performs with the installed
comparator: the comparator receives the two resolved values (through the
overridden value getter of the auto-group column), the two rows, and whether
the active direction is descending; a no-opinion result falls back to the
default code-point comparison of the grid, and for a descending sort the grid
negates the comparator result. -/
def effectiveCompare (dir : SortDir) (valueGetter : VGParams → Option String)
    (columnsState : List ColumnState) (colId : Option String)
    (rowA rowB : Row) : Int :=
  let a := getValueGetterFn valueGetter columnsState ⟨some rowA, colId⟩
  let b := getValueGetterFn valueGetter columnsState ⟨some rowB, colId⟩
  let raw := (dummyComparator a b rowA rowB (dir == SortDir.desc)).getD
    (localeCompare a b)
  if dir == SortDir.desc then -raw else raw

/-- Stable insertion into a sorted list, used to model the grid sort. -/
def insertRow (le : Row → Row → Bool) (r : Row) : List Row → List Row
  | [] => [r]
  | x :: xs => if le r x then r :: x :: xs else x :: insertRow le r xs

/-- Stable comparison sort, used to model the grid sort. -/
def sortRows (le : Row → Row → Bool) : List Row → List Row
  | [] => []
  | r :: rs => insertRow le r (sortRows le rs)

/-- Grid sort of a row set by one column with the installed comparator and
value getter, with the active direction dir taken from the column state. -/
def gridSortRows (dir : SortDir) (valueGetter : VGParams → Option String)
    (columnsState : List ColumnState) (colId : Option String)
    (rows : List Row) : List Row :=
  sortRows
    (fun rowA rowB =>
      effectiveCompare dir valueGetter columnsState colId rowA rowB ≤ 0)
    rows

/-- Decides whether the loading rows sit contiguously at the end of a list:
after the leading non-loading prefix is dropped, every remaining row must be
a loading row. -/
def loadingAtEnd (rows : List Row) : Bool :=
  (rows.dropWhile fun r => !r.loading).all fun r => r.loading

/-- Export parameters (ProcessCellForExportParams): the node, the cell value
already resolved for display, and the colId of the column. -/
structure ExportParams where
  node : RowNode
  value : String
  colId : Option String

/-- Column definition slice destructured by getClipboardGetterFn. -/
structure ColDefE where
  clipboardValueGetter : Option (ExportParams → Option String)
  valueGetter : VGParams → Option String

/-- Embedding of getClipboardGetterFn: a dedicated clipboardValueGetter, when
present, is delegated to first; otherwise a loading row or an aggregation
value exports the empty string, and any other cell delegates to the real
valueGetter evaluated with data set to params.node.data. The read of
params.node.data.loading has no guard, so a node without data raises a
TypeError on that path. -/
def getClipboardGetterFn (colDef : ColDefE) (isAggregation : String → Bool)
    (params : ExportParams) : Except String (Option String) :=
  match colDef.clipboardValueGetter with
  | some clipboardValueGetter => Except.ok (clipboardValueGetter params)
  | none =>
    match params.node.data with
    | none => Except.error "TypeError"
    | some d =>
      if d.loading || isAggregation params.value then Except.ok (some "")
      else Except.ok (colDef.valueGetter ⟨some d, params.colId⟩)

/-- Identifier of loadingRows[0], the row whose presence
observeShortPollingLoading probes with getRowNode. -/
def firstLoadingRowId : String := (loadingRows.head?.map Row.id).getD ""

/-- Presence probe !!this.gridApi?.getRowNode(this.loadingRows[0].id). -/
def hasLoadingNodes (s : List Row) : Bool :=
  (s.find? fun r => r.id == firstLoadingRowId).isSome

/-- Embedding of gridApi.applyTransaction: rows listed in remove are deleted
by identifier, rows listed in add are appended. -/
def applyTransaction (add remove : List Row) (s : List Row) : List Row :=
  (s.filter fun r => !(remove.any fun q => q.id == r.id)) ++ add

/-- Embedding of the reconciler body of observeShortPollingLoading, run on
each emission of loading$ that passes the destroyCalled guard. -/
def loadingStep (isLoading : Bool) (s : List Row) : List Row :=
  let withLoadingNodes := hasLoadingNodes s
  if withLoadingNodes && !isLoading then applyTransaction [] loadingRows s
  else if !withLoadingNodes && isLoading then applyTransaction loadingRows [] s
  else s

/-- Embedding of debounceTime over a timestamped event list: an event is
emitted, at its own time plus the window, exactly when no further event
arrives strictly within the window after it. -/
def debounce {α : Type} (window : Nat) :
    List (Nat × α) → List (Nat × α)
  | [] => []
  | [(t, x)] => [(t + window, x)]
  | (t, x) :: (s, y) :: rest =>
    if s < t + window then debounce window ((s, y) :: rest)
    else (t + window, x) :: debounce window ((s, y) :: rest)

/-- Fetches issued by observeShortPollingData for a timestamped sequence of
merged trigger events: one fetch per debounceTime(100) emission, carrying the
view state observed when the fetch fires. -/
def triggerFetches {α : Type} (events : List (Nat × α)) : List (Nat × α) :=
  debounce 100 events

/-- Event alphabet of the two short-polling pipelines plus teardown. -/
inductive Ev
  | trig
  | ok (gen : Nat) (chunk : List Row)
  | err (gen : Nat)
  | load (isLoading : Bool)
  | destroy
deriving DecidableEq, Repr

/-- Machine state: generation of the most recently started fetch, liveness of
the data subscription, teardown flag, the row set, the chunks published to
dataEmitSubject, and the number of fetches started. -/
structure MState where
  gen : Nat
  alive : Bool
  destroyed : Bool
  rows : List Row
  emitted : List (List Row)
  fetches : Nat
deriving DecidableEq, Repr

/-- State when the component subscribes in onGridReady. -/
def initState : MState :=
  { gen := 0
    alive := true
    destroyed := false
    rows := []
    emitted := []
    fetches := 0 }

/-- One machine step. A debounced trigger clears the row set with
setRowData([]) and switches to a fresh fetch; a completion is forwarded to
dataEmitSubject only when its generation is the current one (switchMap keeps
only the latest inner subscription); an error of the current fetch terminates
the data subscription because subscribe() installs no error handler; a
loading emission runs the reconciler; destroy tears the instance down, after
which untilDestroyed and the destroyCalled guard suppress everything. -/
def step (s : MState) : Ev → MState
  | Ev.trig =>
    if s.destroyed || !s.alive then s
    else { s with gen := s.gen + 1, fetches := s.fetches + 1, rows := [] }
  | Ev.ok g chunk =>
    if s.destroyed || !s.alive || g != s.gen then s
    else { s with emitted := s.emitted ++ [chunk] }
  | Ev.err g =>
    if s.destroyed || !s.alive || g != s.gen then s
    else { s with alive := false }
  | Ev.load b =>
    if s.destroyed then s else { s with rows := loadingStep b s.rows }
  | Ev.destroy => { s with destroyed := true }

/-- Run of the machine over an event list. -/
def run (s : MState) : List Ev → MState
  | [] => s
  | e :: es => run (step s e) es

/-- Recogniser for loading-signal events. -/
def isLoadEv : Ev → Bool
  | Ev.load _ => true
  | _ => false

/-- Fixed real row used in the concrete sorting evaluation. -/
def emptyValuedRow : Row := { loading := false, id := "r1", hierarchyStructure := [] }

/-- Column state with the auto-group column sorted ascending. -/
def ascAutoColumnState : List ColumnState :=
  [{ colId := "ag-Grid-AutoColumn", sort := some SortDir.asc }]

/-- Real value getter that resolves every row to the empty string. -/
def emptyStringGetter : VGParams → Option String := fun _ => some ""

/-- Row set mixing the 25 loading rows with one real row. -/
def mixedRows : List Row := loadingRows ++ [emptyValuedRow]

/-- C9: the placeholder row generator is a pure constant producing exactly 25
rows, all flagged loading, with pairwise distinct identifiers loading0 through
loading24, each carrying the singleton hierarchy path of its own identifier. -/
theorem loadingRows_generator_spec :
    loadingRows.length = 25 ∧
    (∀ r ∈ loadingRows, r.loading = true) ∧
    (loadingRows.map Row.id).Nodup ∧
    (∀ r ∈ loadingRows, r.hierarchyStructure = [r.id]) ∧
    loadingRows.map Row.id =
      (List.range 25).map (fun i => "loading" ++ toString i) := by
  refine ⟨rfl, ?_, ?_, ?_, rfl⟩ <;> decide

/-- C4: the overridden value accessor returns the maximum-codepoint sentinel
for a loading row on an ascending column and the minimum-codepoint sentinel
otherwise; for a non-loading row it delegates to the real accessor of the
column, falling back to the same direction-dependent sentinel when that
accessor yields no value. -/
theorem valueGetter_sentinel_spec (valueGetter : VGParams → Option String)
    (columnsState : List ColumnState) (colId : Option String) (row : Row) :
    (row.loading = true →
      getValueGetterFn valueGetter columnsState ⟨some row, colId⟩ =
        if activeAsc columnsState colId then maxSentinel else minSentinel) ∧
    (∀ v, row.loading = false → valueGetter ⟨some row, colId⟩ = some v →
      getValueGetterFn valueGetter columnsState ⟨some row, colId⟩ = v) ∧
    (row.loading = false → valueGetter ⟨some row, colId⟩ = none →
      getValueGetterFn valueGetter columnsState ⟨some row, colId⟩ =
        if activeAsc columnsState colId then maxSentinel else minSentinel) := by
  refine ⟨fun h => ?_, fun v h hv => ?_, fun h hv => ?_⟩
  · simp [getValueGetterFn, Option.elim, h]
  · simp [getValueGetterFn, Option.elim, h, hv]
  · simp [getValueGetterFn, Option.elim, h, hv]

/-- Witness for C4 at a concrete loading row on an ascending column. -/
theorem valueGetter_sentinel_spec_witness :
    getValueGetterFn emptyStringGetter ascAutoColumnState
      ⟨some { loading := true, id := "loading0",
              hierarchyStructure := ["loading0"] }, some "ag-Grid-AutoColumn"⟩ =
      if activeAsc ascAutoColumnState (some "ag-Grid-AutoColumn")
      then maxSentinel else minSentinel :=
  (valueGetter_sentinel_spec emptyStringGetter ascAutoColumnState
    (some "ag-Grid-AutoColumn")
    { loading := true, id := "loading0", hierarchyStructure := ["loading0"] }).1
    rfl

/-- C3 failing input evaluated: on an ascending column, sorting the 25 loading
rows together with one real row whose resolved value is the empty string
places every loading row above that real row, so the loading rows are not at
the end of the sorted order, contrary to the pushes-loading-rows-down intent
stated in the source comment. -/
theorem sort_loading_rows_not_at_bottom :
    gridSortRows SortDir.asc emptyStringGetter ascAutoColumnState
        (some "ag-Grid-AutoColumn") mixedRows = loadingRows ++ [emptyValuedRow] ∧
    loadingAtEnd
      (gridSortRows SortDir.asc emptyStringGetter ascAutoColumnState
        (some "ag-Grid-AutoColumn") mixedRows) = false := by
  exact ⟨by decide, by decide⟩

/-- C10 counterexample: evaluating the installed comparator on a row node
without backing data, or the filter-skip predicate on such a node, faults with
a TypeError, because node.data is dereferenced without a guard. -/
theorem comparator_filterSkip_fault_on_dataless_node :
    dummyComparatorNode "" "" ⟨none⟩ ⟨none⟩ false = Except.error "TypeError" ∧
    isRowFilterSkipped none ⟨none⟩ = Except.error "TypeError" :=
  ⟨rfl, rfl⟩

/-- C10 amended: the comparator and the filter-skip predicate are total only
on row nodes whose backing data is present (where the comparator agrees with
its data-level form); a node without backing data makes the comparator fault
already on its first operand, makes it fault on the second operand unless the
first is loading, and makes the filter-skip predicate fault for every registry
content. -/
theorem comparator_filterSkip_totality_amended (a b : String) (ra rb : Row)
    (isInverted : Bool) (registry : Option (List String)) (node : RowNode)
    (d : Row) (hd : node.data = some d) :
    dummyComparatorNode a b ⟨some ra⟩ ⟨some rb⟩ isInverted =
      Except.ok (dummyComparator a b ra rb isInverted) ∧
    (isRowFilterSkipped registry node).isOk = true ∧
    (∀ rB, dummyComparatorNode a b ⟨none⟩ rB isInverted =
      Except.error "TypeError") ∧
    (ra.loading = false → dummyComparatorNode a b ⟨some ra⟩ ⟨none⟩ isInverted =
      Except.error "TypeError") ∧
    isRowFilterSkipped registry ⟨none⟩ = Except.error "TypeError" := by
  refine ⟨?_, ?_, fun rB => rfl, fun h => ?_, ?_⟩
  · by_cases hra : ra.loading <;> by_cases hrb : rb.loading <;>
      simp [dummyComparatorNode, dummyComparator, hra, hrb]
  · cases registry <;> simp [isRowFilterSkipped, hd] <;> rfl
  · simp [dummyComparatorNode, h]
  · cases registry <;> rfl

/-- Witness for the amended C10 at a concrete node carrying backing data. -/
theorem comparator_filterSkip_totality_amended_witness :
    dummyComparatorNode "x" "y" ⟨some emptyValuedRow⟩ ⟨some emptyValuedRow⟩
        false =
      Except.ok (dummyComparator "x" "y" emptyValuedRow emptyValuedRow false) ∧
    (isRowFilterSkipped none ⟨some emptyValuedRow⟩).isOk = true ∧
    (∀ rB, dummyComparatorNode "x" "y" ⟨none⟩ rB false =
      Except.error "TypeError") ∧
    (emptyValuedRow.loading = false →
      dummyComparatorNode "x" "y" ⟨some emptyValuedRow⟩ ⟨none⟩ false =
        Except.error "TypeError") ∧
    isRowFilterSkipped none ⟨none⟩ = Except.error "TypeError" :=
  comparator_filterSkip_totality_amended "x" "y" emptyValuedRow emptyValuedRow
    false none ⟨some emptyValuedRow⟩ emptyValuedRow rfl

/-- C5 counterexample: when the column carries a dedicated clipboard getter,
the export path delegates to it even for a loading row, so the export of a
loading row is whatever that getter returns, not the empty value the claim
demands. -/
theorem clipboard_loading_row_not_always_empty :
    getClipboardGetterFn
        { clipboardValueGetter := some fun _ => some "X"
          valueGetter := fun _ => none }
        (fun _ => false)
        { node := ⟨some { loading := true, id := "loading0",
                          hierarchyStructure := ["loading0"] }⟩
          value := "v"
          colId := some "c" } = Except.ok (some "X") ∧
    (Except.ok (some "X") : Except String (Option String)) ≠
      Except.ok (some "") :=
  ⟨rfl, by simp⟩

/-- C5 amended: the export accessor delegates unconditionally to a dedicated
clipboard getter when one exists (including for loading rows); when none
exists, a loading row or an aggregation value exports the empty string, which
differs from both display sentinels, and every other cell delegates to the
real value accessor evaluated against the backing data of the row. -/
theorem clipboard_getter_amended (colDef : ColDefE)
    (isAggregation : String → Bool) (params : ExportParams) (d : Row)
    (hd : params.node.data = some d) :
    (∀ g, colDef.clipboardValueGetter = some g →
      getClipboardGetterFn colDef isAggregation params = Except.ok (g params)) ∧
    (colDef.clipboardValueGetter = none → d.loading = true →
      getClipboardGetterFn colDef isAggregation params = Except.ok (some "")) ∧
    (colDef.clipboardValueGetter = none → d.loading = false →
      isAggregation params.value = false →
      getClipboardGetterFn colDef isAggregation params =
        Except.ok (colDef.valueGetter ⟨some d, params.colId⟩)) ∧
    maxSentinel ≠ "" ∧ minSentinel ≠ "" := by
  refine ⟨fun g hg => ?_, fun hg hl => ?_, fun hg hl ha => ?_, by decide,
    by decide⟩
  · simp [getClipboardGetterFn, hg]
  · simp [getClipboardGetterFn, hg, hd, hl]
  · simp [getClipboardGetterFn, hg, hd, hl, ha]

/-- Helper: a row set whose identifiers avoid the reserved loading
identifiers fails the presence probe. -/
lemma hasLoadingNodes_eq_false (s : List Row)
    (hfree : ∀ r ∈ s, ∀ q ∈ loadingRows, r.id ≠ q.id) :
    hasLoadingNodes s = false := by
  have hm : ({ loading := true, id := "loading0",
               hierarchyStructure := ["loading0"] } : Row) ∈ loadingRows := by
    decide
  have : s.find? (fun r => r.id == firstLoadingRowId) = none := by
    refine List.find?_eq_none.mpr fun r hr => ?_
    have := hfree r hr _ hm
    simp [firstLoadingRowId, loadingRows]
    simpa [firstLoadingRowId, loadingRows] using this
  simp [hasLoadingNodes, this]

/-- Helper: appending the placeholder batch makes the presence probe succeed. -/
lemma hasLoadingNodes_append (s : List Row) :
    hasLoadingNodes (s ++ loadingRows) = true := by
  rw [hasLoadingNodes, List.find?_append]
  cases h : s.find? (fun r => r.id == firstLoadingRowId) <;>
    simp [h, Option.or]
  decide

/-- C6: the loading-state reconciler is idempotent. On a row set whose
identifiers are distinct and avoid the reserved loading identifiers: a
loading emission appends the 25-row batch exactly once, keeping identifiers
duplicate-free, and a second loading emission mutates nothing; a not-loading
emission removes exactly that batch, and on a row set without placeholders a
not-loading emission mutates nothing and does not error, so a second one is
also a no-op. -/
theorem loading_reconciler_idempotent (s : List Row)
    (hfree : ∀ r ∈ s, ∀ q ∈ loadingRows, r.id ≠ q.id)
    (hnodup : (s.map Row.id).Nodup) :
    loadingStep true s = s ++ loadingRows ∧
    loadingStep true (loadingStep true s) = loadingStep true s ∧
    ((loadingStep true s).map Row.id).Nodup ∧
    (loadingStep true s).length = s.length + 25 ∧
    loadingStep false (loadingStep true s) = s ∧
    loadingStep false s = s ∧
    loadingStep false (loadingStep false s) = loadingStep false s := by
  have habs := hasLoadingNodes_eq_false s hfree
  have hins : loadingStep true s = s ++ loadingRows := by
    simp [loadingStep, habs, applyTransaction]
  have hpres := hasLoadingNodes_append s
  have hrem : loadingStep false (s ++ loadingRows) = s := by
    rw [loadingStep]
    simp only [hpres]
    rw [applyTransaction, List.filter_append]
    have h1 : s.filter
        (fun r => !(loadingRows.any fun q => q.id == r.id)) = s := by
      refine List.filter_eq_self.mpr fun r hr => ?_
      have : loadingRows.any (fun q => q.id == r.id) = false := by
        refine List.any_eq_false.mpr fun q hq => ?_
        simpa using (hfree r hr q hq).symm
      simp [this]
    have h2 : loadingRows.filter
        (fun r => !(loadingRows.any fun q => q.id == r.id)) = [] := by
      decide
    simp [h1, h2]
  have hnone : loadingStep false s = s := by
    simp [loadingStep, habs]
  refine ⟨hins, ?_, ?_, ?_, ?_, hnone, ?_⟩
  · rw [hins, loadingStep]
    simp [hpres]
  · rw [hins, List.map_append]
    refine List.nodup_append.mpr ⟨hnodup, by decide, ?_⟩
    intro a ha hb
    obtain ⟨r, hr, hra⟩ := List.mem_map.mp ha
    obtain ⟨q, hq, hqa⟩ := List.mem_map.mp hb
    exact hfree r hr q hq (hra.trans hqa.symm)
  · rw [hins, List.length_append]
    rfl
  · rw [hins, hrem]
  · rw [hnone, hnone]

/-- Witness for C6 on a concrete one-row set. -/
theorem loading_reconciler_idempotent_witness :
    loadingStep true [emptyValuedRow] = [emptyValuedRow] ++ loadingRows ∧
    loadingStep true (loadingStep true [emptyValuedRow]) =
      loadingStep true [emptyValuedRow] ∧
    ((loadingStep true [emptyValuedRow]).map Row.id).Nodup ∧
    (loadingStep true [emptyValuedRow]).length = [emptyValuedRow].length + 25 ∧
    loadingStep false (loadingStep true [emptyValuedRow]) = [emptyValuedRow] ∧
    loadingStep false [emptyValuedRow] = [emptyValuedRow] ∧
    loadingStep false (loadingStep false [emptyValuedRow]) =
      loadingStep false [emptyValuedRow] :=
  loading_reconciler_idempotent [emptyValuedRow] (by decide) (by decide)

/-- Helper: running an appended event list is running the pieces in order. -/
lemma run_append (l1 l2 : List Ev) (s : MState) :
    run s (l1 ++ l2) = run (run s l1) l2 := by
  induction l1 generalizing s with
  | nil => rfl
  | cons e l ih => simp [run, ih]

/-- Helper: loading-signal events touch only the row set; generation,
liveness, teardown flag, published chunks and fetch count are unchanged. -/
lemma run_loads (l : List Ev) (h : ∀ e ∈ l, isLoadEv e = true) (s : MState) :
    (run s l).gen = s.gen ∧ (run s l).alive = s.alive ∧
    (run s l).destroyed = s.destroyed ∧ (run s l).emitted = s.emitted ∧
    (run s l).fetches = s.fetches := by
  induction l generalizing s with
  | nil => exact ⟨rfl, rfl, rfl, rfl, rfl⟩
  | cons e l ih =>
    have he := h e (List.mem_cons_self e l)
    have hrest := fun x hx => h x (List.mem_cons_of_mem e hx)
    cases e with
    | load b =>
      have hfields : (step s (Ev.load b)).gen = s.gen ∧
          (step s (Ev.load b)).alive = s.alive ∧
          (step s (Ev.load b)).destroyed = s.destroyed ∧
          (step s (Ev.load b)).emitted = s.emitted ∧
          (step s (Ev.load b)).fetches = s.fetches := by
        cases hd : s.destroyed <;> simp [step, hd]
      obtain ⟨h1, h2, h3, h4, h5⟩ := hfields
      obtain ⟨g1, g2, g3, g4, g5⟩ := ih hrest (step s (Ev.load b))
      exact ⟨g1.trans h1, g2.trans h2, g3.trans h3, g4.trans h4, g5.trans h5⟩
    | trig => simp [isLoadEv] at he
    | ok g c => simp [isLoadEv] at he
    | err g => simp [isLoadEv] at he
    | destroy => simp [isLoadEv] at he

/-- Helper: once the data subscription has terminated, no event starts a
fetch or publishes a chunk. -/
lemma run_dead (l : List Ev) (s : MState) (h : s.alive = false) :
    (run s l).fetches = s.fetches ∧ (run s l).emitted = s.emitted ∧
    (run s l).alive = false := by
  induction l generalizing s with
  | nil => exact ⟨rfl, rfl, h⟩
  | cons e l ih =>
    have hfields : (step s e).fetches = s.fetches ∧
        (step s e).emitted = s.emitted ∧ (step s e).alive = false := by
      cases e with
      | trig => simp [step, h]
      | ok g c => simp [step, h]
      | err g => simp [step, h]
      | load b => cases hd : s.destroyed <;> simp [step, hd, h]
      | destroy => simp [step, h]
    obtain ⟨h1, h2, h3⟩ := hfields
    obtain ⟨g1, g2, g3⟩ := ih (step s e) h3
    exact ⟨g1.trans h1, g2.trans h2, g3⟩

/-- Helper: after teardown every event is suppressed: the row set and the
published chunks never change again. -/
lemma run_destroyed (l : List Ev) (s : MState) (h : s.destroyed = true) :
    (run s l).rows = s.rows ∧ (run s l).emitted = s.emitted ∧
    (run s l).destroyed = true := by
  induction l generalizing s with
  | nil => exact ⟨rfl, rfl, h⟩
  | cons e l ih =>
    have hfields : (step s e).rows = s.rows ∧
        (step s e).emitted = s.emitted ∧ (step s e).destroyed = true := by
      cases e <;> simp [step, h]
    obtain ⟨h1, h2, h3⟩ := hfields
    obtain ⟨g1, g2, g3⟩ := ih (step s e) h3
    exact ⟨g1.trans h1, g2.trans h2, g3⟩

/-- Helper: a debounced trigger on a live machine clears the row set and
starts a fetch with the next generation. -/
lemma step_trig_live (s : MState) (h1 : s.alive = true)
    (h2 : s.destroyed = false) :
    step s Ev.trig =
      { s with gen := s.gen + 1, fetches := s.fetches + 1, rows := [] } := by
  simp [step, h1, h2]

/-- Helper: a completion of the current fetch is published. -/
lemma step_ok_hit (s : MState) (g : Nat) (c : List Row) (h1 : s.alive = true)
    (h2 : s.destroyed = false) (hg : g = s.gen) :
    step s (Ev.ok g c) = { s with emitted := s.emitted ++ [c] } := by
  simp [step, h1, h2, hg]

/-- Helper: a completion of a superseded fetch is discarded. -/
lemma step_ok_miss (s : MState) (g : Nat) (c : List Row) (hg : g ≠ s.gen) :
    step s (Ev.ok g c) = s := by
  simp [step, hg]

/-- Helper: an error of the current fetch terminates the subscription. -/
lemma step_err_hit (s : MState) (g : Nat) (h1 : s.alive = true)
    (h2 : s.destroyed = false) (hg : g = s.gen) :
    step s (Ev.err g) = { s with alive := false } := by
  simp [step, h1, h2, hg]

/-- C1: last fetch wins. From any live state, when fetch A is started by a
trigger, fetch B by a later trigger, and the completion of A arrives after
the completion of B (loading signals may interleave anywhere), exactly the
chunk of B is published and the late chunk of A is never applied; the last
published data is the result of B. -/
theorem switchMap_last_fetch_wins (s : MState) (la lb lc : List Ev)
    (chunkA chunkB : List Row)
    (ha : ∀ e ∈ la, isLoadEv e = true) (hb : ∀ e ∈ lb, isLoadEv e = true)
    (hc : ∀ e ∈ lc, isLoadEv e = true)
    (halive : s.alive = true) (hdes : s.destroyed = false) :
    (run s (la ++ [Ev.trig] ++ lb ++ [Ev.trig, Ev.ok (s.gen + 2) chunkB] ++
      lc ++ [Ev.ok (s.gen + 1) chunkA])).emitted = s.emitted ++ [chunkB] ∧
    (run s (la ++ [Ev.trig] ++ lb ++ [Ev.trig, Ev.ok (s.gen + 2) chunkB] ++
      lc ++ [Ev.ok (s.gen + 1) chunkA])).emitted.getLast? = some chunkB := by
  have hsplit : run s (la ++ [Ev.trig] ++ lb ++
      [Ev.trig, Ev.ok (s.gen + 2) chunkB] ++ lc ++
      [Ev.ok (s.gen + 1) chunkA]) =
      step (run (step (step (run (step (run s la) Ev.trig) lb) Ev.trig)
        (Ev.ok (s.gen + 2) chunkB)) lc) (Ev.ok (s.gen + 1) chunkA) := by
    simp [run_append, run]
  obtain ⟨a1, a2, a3, a4, a5⟩ := run_loads la ha s
  have h2 : step (run s la) Ev.trig = { run s la with
      gen := (run s la).gen + 1, fetches := (run s la).fetches + 1,
      rows := [] } := step_trig_live _ (a2.trans halive) (a3.trans hdes)
  obtain ⟨b1, b2, b3, b4, b5⟩ := run_loads lb hb (step (run s la) Ev.trig)
  have s3gen : (run (step (run s la) Ev.trig) lb).gen = s.gen + 1 := by
    rw [b1, h2]; simp [a1]
  have s3alive : (run (step (run s la) Ev.trig) lb).alive = true := by
    rw [b2, h2]; simp [a2, halive]
  have s3des : (run (step (run s la) Ev.trig) lb).destroyed = false := by
    rw [b3, h2]; simp [a3, hdes]
  have s3em : (run (step (run s la) Ev.trig) lb).emitted = s.emitted := by
    rw [b4, h2]; simp [a4]
  have h4 : step (run (step (run s la) Ev.trig) lb) Ev.trig =
      { run (step (run s la) Ev.trig) lb with
        gen := (run (step (run s la) Ev.trig) lb).gen + 1,
        fetches := (run (step (run s la) Ev.trig) lb).fetches + 1,
        rows := [] } := step_trig_live _ s3alive s3des
  have s4gen : (step (run (step (run s la) Ev.trig) lb) Ev.trig).gen =
      s.gen + 2 := by rw [h4]; simp [s3gen]
  have s4alive : (step (run (step (run s la) Ev.trig) lb) Ev.trig).alive =
      true := by rw [h4]; simpa using s3alive
  have s4des : (step (run (step (run s la) Ev.trig) lb) Ev.trig).destroyed =
      false := by rw [h4]; simpa using s3des
  have s4em : (step (run (step (run s la) Ev.trig) lb) Ev.trig).emitted =
      s.emitted := by rw [h4]; simpa using s3em
  have h5 : step (step (run (step (run s la) Ev.trig) lb) Ev.trig)
      (Ev.ok (s.gen + 2) chunkB) =
      { step (run (step (run s la) Ev.trig) lb) Ev.trig with
        emitted := (step (run (step (run s la) Ev.trig) lb) Ev.trig).emitted
          ++ [chunkB] } := step_ok_hit _ _ _ s4alive s4des s4gen.symm
  obtain ⟨c1, c2, c3, c4, c5⟩ := run_loads lc hc
    (step (step (run (step (run s la) Ev.trig) lb) Ev.trig)
      (Ev.ok (s.gen + 2) chunkB))
  have s6gen : (run (step (step (run (step (run s la) Ev.trig) lb) Ev.trig)
      (Ev.ok (s.gen + 2) chunkB)) lc).gen = s.gen + 2 := by
    rw [c1, h5]; simpa using s4gen
  have s6em : (run (step (step (run (step (run s la) Ev.trig) lb) Ev.trig)
      (Ev.ok (s.gen + 2) chunkB)) lc).emitted = s.emitted ++ [chunkB] := by
    rw [c4, h5]; simp [s4em]
  have hmiss : step (run (step (step (run (step (run s la) Ev.trig) lb)
      Ev.trig) (Ev.ok (s.gen + 2) chunkB)) lc) (Ev.ok (s.gen + 1) chunkA) =
      run (step (step (run (step (run s la) Ev.trig) lb) Ev.trig)
        (Ev.ok (s.gen + 2) chunkB)) lc := by
    refine step_ok_miss _ _ _ ?_
    rw [s6gen]; omega
  rw [hsplit, hmiss, s6em]
  exact ⟨rfl, List.getLast?_concat _⟩

/-- Witness for C1 at the initial state with concrete chunks. -/
theorem switchMap_last_fetch_wins_witness :
    (run initState ([] ++ [Ev.trig] ++ [] ++
      [Ev.trig, Ev.ok (initState.gen + 2) []] ++ [] ++
      [Ev.ok (initState.gen + 1) [emptyValuedRow]])).emitted =
      initState.emitted ++ [[]] ∧
    (run initState ([] ++ [Ev.trig] ++ [] ++
      [Ev.trig, Ev.ok (initState.gen + 2) []] ++ [] ++
      [Ev.ok (initState.gen + 1) [emptyValuedRow]])).emitted.getLast? =
      some [] :=
  switchMap_last_fetch_wins initState [] [] [] [emptyValuedRow] []
    (by simp) (by simp) (by simp) rfl rfl

/-- C2: a burst of trigger events each arriving strictly within 100ms of the
previous one leads to exactly one fetch, fired 100ms after the last event of
the burst (so only once the merged stream has been quiescent for the window)
and carrying the view state of that last event. -/
theorem debounce_burst_single_fetch {α : Type} (events : List (Nat × α))
    (t : Nat) (x : α) (hlast : events.getLast? = some (t, x))
    (hburst : events.Chain' fun a b => b.1 < a.1 + 100) :
    triggerFetches events = [(t + 100, x)] := by
  induction events with
  | nil => simp at hlast
  | cons e rest ih =>
    cases rest with
    | nil =>
      obtain ⟨te, xe⟩ := e
      simp [List.getLast?] at hlast
      obtain ⟨h1, h2⟩ := hlast
      simp [triggerFetches, debounce, h1, h2]
    | cons f rest' =>
      have hlt : f.1 < e.1 + 100 := (List.chain'_cons.mp hburst).1
      have hburst' := (List.chain'_cons.mp hburst).2
      have hlast' : (f :: rest').getLast? = some (t, x) := by
        simpa [List.getLast?_cons_cons] using hlast
      have hstep : triggerFetches (e :: f :: rest') =
          triggerFetches (f :: rest') := by
        obtain ⟨te, xe⟩ := e
        obtain ⟨tf, xf⟩ := f
        simp only [triggerFetches, debounce]
        simp [hlt]
      rw [hstep]
      exact ih hlast' hburst'

/-- Witness for C2 on a concrete three-event burst. -/
theorem debounce_burst_single_fetch_witness :
    triggerFetches [(0, (0 : Nat)), (50, 1), (99, 2)] = [(99 + 100, 2)] :=
  debounce_burst_single_fetch [(0, (0 : Nat)), (50, 1), (99, 2)] 99 2
    (by simp) (by norm_num [List.chain'_cons])

/-- C7 counterexample: after a fetch error the data subscription is dead, so
a subsequent trigger starts no fetch and nothing is ever published; the claim
that the coordinator returns to Idle and subsequent triggers still cause
fetches fails already on this three-event input. -/
theorem fetch_error_stops_subsequent_fetches :
    (run initState [Ev.trig, Ev.err 1, Ev.trig]).fetches = 1 ∧
    (run initState [Ev.trig, Ev.err 1, Ev.trig]).fetches ≠ 2 ∧
    (run initState [Ev.trig, Ev.err 1, Ev.trig]).alive = false ∧
    (run initState [Ev.trig, Ev.err 1, Ev.trig]).emitted = [] := by
  refine ⟨rfl, by decide, rfl, rfl⟩

/-- C7 amended: a fetch error leaves the row set empty (it was cleared when
the trigger fired) rather than stale and publishes nothing, but it terminates
the data subscription instead of returning to Idle: afterwards no event ever
starts another fetch or publishes a chunk, and no error value reaches
dataEmitSubject. -/
theorem fetch_error_amended (s : MState) (es : List Ev)
    (halive : s.alive = true) (hdes : s.destroyed = false) :
    (run s [Ev.trig, Ev.err (s.gen + 1)]).rows = [] ∧
    (run s [Ev.trig, Ev.err (s.gen + 1)]).emitted = s.emitted ∧
    (run s [Ev.trig, Ev.err (s.gen + 1)]).alive = false ∧
    (run (run s [Ev.trig, Ev.err (s.gen + 1)]) es).fetches =
      (run s [Ev.trig, Ev.err (s.gen + 1)]).fetches ∧
    (run (run s [Ev.trig, Ev.err (s.gen + 1)]) es).emitted = s.emitted := by
  have h1 : step s Ev.trig =
      { s with gen := s.gen + 1, fetches := s.fetches + 1, rows := [] } :=
    step_trig_live s halive hdes
  have h2 : run s [Ev.trig, Ev.err (s.gen + 1)] =
      { { s with gen := s.gen + 1, fetches := s.fetches + 1, rows := [] }
        with alive := false } := by
    show step (step s Ev.trig) (Ev.err (s.gen + 1)) = _
    rw [h1]
    exact step_err_hit _ _ (by simpa using halive) (by simpa using hdes) rfl
  have halive2 : (run s [Ev.trig, Ev.err (s.gen + 1)]).alive = false := by
    rw [h2]
  obtain ⟨d1, d2, d3⟩ :=
    run_dead es (run s [Ev.trig, Ev.err (s.gen + 1)]) halive2
  exact ⟨by rw [h2], by rw [h2], halive2, d1, by rw [d2, h2]⟩

/-- Witness for the amended C7 at the initial state. -/
theorem fetch_error_amended_witness :
    (run initState [Ev.trig, Ev.err (initState.gen + 1)]).rows = [] ∧
    (run initState [Ev.trig, Ev.err (initState.gen + 1)]).emitted =
      initState.emitted ∧
    (run initState [Ev.trig, Ev.err (initState.gen + 1)]).alive = false ∧
    (run (run initState [Ev.trig, Ev.err (initState.gen + 1)])
      [Ev.trig]).fetches =
      (run initState [Ev.trig, Ev.err (initState.gen + 1)]).fetches ∧
    (run (run initState [Ev.trig, Ev.err (initState.gen + 1)])
      [Ev.trig]).emitted = initState.emitted :=
  fetch_error_amended initState [Ev.trig] rfl rfl

/-- C8: after teardown no row-set mutation and no publication is ever
performed: whatever events follow destroy, loading signals or completions of
in-flight fetches included, the row set and the published chunks stay exactly
as they were at teardown. -/
theorem no_mutation_after_teardown (s : MState) (es : List Ev) :
    (run (step s Ev.destroy) es).rows = s.rows ∧
    (run (step s Ev.destroy) es).emitted = s.emitted := by
  obtain ⟨h1, h2, h3⟩ := run_destroyed es (step s Ev.destroy) rfl
  exact ⟨h1, h2⟩

/-- Witness for the amended C5: with no dedicated clipboard getter, a loading
row exports the empty value. -/
theorem clipboard_getter_amended_witness :
    getClipboardGetterFn
        { clipboardValueGetter := none, valueGetter := fun _ => none }
        (fun _ => false)
        { node := ⟨some { loading := true, id := "loading0",
                          hierarchyStructure := ["loading0"] }⟩
          value := "v"
          colId := some "c" } = Except.ok (some "") :=
  (clipboard_getter_amended
    { clipboardValueGetter := none, valueGetter := fun _ => none }
    (fun _ => false)
    { node := ⟨some { loading := true, id := "loading0",
                      hierarchyStructure := ["loading0"] }⟩
      value := "v"
      colId := some "c" }
    { loading := true, id := "loading0", hierarchyStructure := ["loading0"] }
    rfl).2.1 rfl rfl
